import Mathlib

/-!
Shallow embedding of the zram compression-stream pool
(`drivers/block/zram/zcomp.c`) and proofs about its specification.

The embedding models:
* the fallible allocation layer (`zcomp_strm_alloc` / `zcomp_strm_free`),
  with allocation outcomes supplied by explicit oracles and a `Ledger`
  counting every resource allocated and freed, so that leak-freedom is a
  provable statement;
* the backend registry and its two distinct name comparisons
  (`sysfs_streq` for availability, exact `strcmp` for the listing);
* the multi-stream pool bookkeeping (`zcomp_strm_multi_find`,
  `zcomp_strm_multi_release`, `zcomp_strm_multi_set_max_streams`), with
  streams abstracted to numeric identifiers and the C `int` counters
  modelled as `Int`;
* the facade `zcomp_create` / `zcomp_set_max_streams`.

Blocking (`wait_event`) is modelled by an explicit supply of streams
released by other threads; a caller whose supply runs out is "still
blocked", represented by `none` — there is no error outcome, mirroring
the C function's inability to return failure.
-/

/-- The block size the surrounding storage layer operates on (one page). -/
def PAGE_SIZE : Nat := 4096

/-- Allocation flags as used by `zcomp.c`: `GFP_KERNEL` at construction,
GFP_NOIO | __GFP_NORETRY | __GFP_NOWARN during growth, and `__GFP_ZERO`
or-ed in for the scratch buffer. Only the bits `zcomp.c` manipulates are
modelled. -/
structure GfpT where
  noio : Bool
  noretry : Bool
  nowarn : Bool
  zero : Bool
deriving Repr, DecidableEq

/-- `GFP_KERNEL`. -/
def GFP_KERNEL : GfpT := ⟨false, false, false, false⟩

/-- GFP_NOIO | __GFP_NORETRY | __GFP_NOWARN, the flags used for lazy
growth in `zcomp_strm_multi_find`. -/
def growFlags : GfpT := ⟨true, true, true, false⟩

/-- Or `__GFP_ZERO` into a flag word. -/
def orZero (f : GfpT) : GfpT := { f with zero := true }

/-- A crypto compression transform handle (`crypto_alloc_comp` result),
carrying the algorithm name it is bound to. -/
structure Tfm where
  algName : String
deriving Repr, DecidableEq

/-- `struct zcomp_strm`: a codec handle plus a scratch buffer.
`tfm = none` models an `IS_ERR_OR_NULL` handle; `buffer = none` models a
failed page allocation. The buffer content is the list of bytes. -/
structure ZcompStrm where
  tfm : Option Tfm
  buffer : Option (List Nat)
deriving Repr, DecidableEq

/-- Resource ledger: counts of allocations (`..A`) and frees (`..F`) of
each kind of resource: `zcomp_strm` structs, crypto transforms, page
blocks, pool bookkeeping structs (`zcomp_strm_multi`/`_single`), and the
`struct zcomp` facade itself. -/
structure Ledger where
  strmA : Nat
  strmF : Nat
  tfmA : Nat
  tfmF : Nat
  pgA : Nat
  pgF : Nat
  poolA : Nat
  poolF : Nat
  compA : Nat
  compF : Nat
deriving Repr, DecidableEq

/-- The empty ledger: nothing allocated, nothing freed. -/
def Ledger.empty : Ledger := ⟨0, 0, 0, 0, 0, 0, 0, 0, 0, 0⟩

/-- A ledger is balanced when every allocated resource has been freed. -/
def Ledger.balanced (l : Ledger) : Prop :=
  l.strmA = l.strmF ∧ l.tfmA = l.tfmF ∧ l.pgA = l.pgF ∧
  l.poolA = l.poolF ∧ l.compA = l.compF

instance (l : Ledger) : Decidable l.balanced := by
  unfold Ledger.balanced; infer_instance

/-- `crypto_alloc_comp(name, 0, 0)`: the oracle bit `ok` decides whether
the crypto layer hands out a transform (failure yields an `ERR_PTR`,
modelled as `none`, which allocates nothing). -/
def crypto_alloc_comp (name : String) (ok : Bool) (l : Ledger) :
    Option Tfm × Ledger :=
  if ok then (some ⟨name⟩, { l with tfmA := l.tfmA + 1 }) else (none, l)

/-- `crypto_free_comp`. -/
def crypto_free_comp (l : Ledger) : Ledger := { l with tfmF := l.tfmF + 1 }

/-- `__get_free_pages(flags, order)`: returns `2 ^ order` pages. With
`__GFP_ZERO` the returned memory is zero-filled; otherwise it holds
whatever `junk` was left in memory. The oracle bit `ok` decides success. -/
def __get_free_pages (flags : GfpT) (order : Nat) (ok : Bool)
    (junk : List Nat) (l : Ledger) : Option (List Nat) × Ledger :=
  if ok then
    (some (if flags.zero then List.replicate (2 ^ order * PAGE_SIZE) 0 else junk),
     { l with pgA := l.pgA + 1 })
  else (none, l)

/-- `zcomp_strm_free`: frees the transform only when it is a valid
handle (the C checks `IS_ERR_OR_NULL`), frees the pages (a no-op when
the buffer pointer is null, as `free_pages(0, 1)` is), and frees the
struct itself. -/
def zcomp_strm_free (zstrm : ZcompStrm) (l : Ledger) : Ledger :=
  let l1 := match zstrm.tfm with
    | some _ => crypto_free_comp l
    | none => l
  let l2 := match zstrm.buffer with
    | some _ => { l1 with pgF := l1.pgF + 1 }
    | none => l1
  { l2 with strmF := l2.strmF + 1 }

/-- Oracle for one `zcomp_strm_alloc` attempt: whether the `kmalloc` of
the struct, the `crypto_alloc_comp`, and the page allocation succeed,
and the junk content uninitialised pages would hold. -/
structure AllocOracle where
  kmallocOk : Bool
  cryptoOk : Bool
  pagesOk : Bool
  junk : List Nat
deriving Repr, DecidableEq

/-- `zcomp_strm_alloc`: allocate the struct, then the transform, then
two pages (`order` 1) with `__GFP_ZERO` or-ed in; if the transform is
`ERR_OR_NULL` or the buffer is null, free everything partially obtained
via `zcomp_strm_free` and return null (`none`). -/
def zcomp_strm_alloc (name : String) (flags : GfpT) (o : AllocOracle)
    (l : Ledger) : Option ZcompStrm × Ledger :=
  if o.kmallocOk then
    let l0 := { l with strmA := l.strmA + 1 }
    let tl := crypto_alloc_comp name o.cryptoOk l0
    let bl := __get_free_pages (orZero flags) 1 o.pagesOk o.junk tl.2
    let zstrm : ZcompStrm := ⟨tl.1, bl.1⟩
    if tl.1.isNone || bl.1.isNone then (none, zcomp_strm_free zstrm bl.2)
    else (some zstrm, bl.2)
  else (none, l)

/-- The compiled-in backend table: `"lzo"`, and `"lz4"` when
`CONFIG_ZRAM_LZ4_COMPRESS` is set (the `lz4` flag models that config). -/
def backends (lz4 : Bool) : List String :=
  if lz4 then ["lzo", "lz4"] else ["lzo"]

/-- Modelled from the spec: the sysfs-style string comparison used by the
availability check (`sysfs_streq`, library code outside this file's
source): equality that additionally accepts exactly one trailing newline
on either side. -/
def sysfs_streq_chars : List Char → List Char → Bool
  | [], [] => true
  | [], c :: rest => c = '\n' && rest.isEmpty
  | c :: rest, [] => c = '\n' && rest.isEmpty
  | c1 :: s1, c2 :: s2 => c1 = c2 && sysfs_streq_chars s1 s2

/-- `sysfs_streq` on strings. -/
def sysfs_streq (s1 s2 : String) : Bool := sysfs_streq_chars s1.data s2.data

/-- Modelled from the spec: exact byte-wise comparison (`strcmp` equal to
zero, library code outside this file's source). -/
def strcmp_eq0 (s1 s2 : String) : Bool := s1 = s2

/-- `find_backend`: walk the backend table and return the first entry
that `sysfs_streq`-matches the requested name, or null (`none`). -/
def find_backend (lz4 : Bool) (compress : String) : Option String :=
  (backends lz4).find? (fun b => sysfs_streq compress b)

/-- `zcomp_available_algorithm`. -/
def zcomp_available_algorithm (lz4 : Bool) (comp : String) : Bool :=
  (find_backend lz4 comp).isSome

/-- `zcomp_available_show`: list every backend, bracketing the one that
matches `comp` exactly (`strcmp`). The `scnprintf` PAGE_SIZE truncation
is not modelled: the registry output is far below a page. -/
def zcomp_available_show (lz4 : Bool) (comp : String) : String :=
  String.join ((backends lz4).map
    (fun b => if strcmp_eq0 comp b then "[" ++ b ++ "] " else b ++ " ")) ++ "\n"

/-- `struct zcomp_strm_multi` bookkeeping: the capacity `max_strm`, the
live count `avail_strm` (both C `int`s, modelled as `Int`), and the idle
list, holding streams abstracted to numeric identifiers. The spinlock
and wait queue have no pure-state content; waking is reported in the
operation results instead. -/
structure MultiState where
  max_strm : Int
  avail_strm : Int
  idle_strm : List Nat
deriving Repr, DecidableEq

/-- Result of `zcomp_strm_multi_release`: the new bookkeeping state,
whether `wake_up` was called, and the stream freed (if any). -/
structure ReleaseResult where
  state : MultiState
  woke : Bool
  freed : Option Nat
deriving Repr, DecidableEq

/-- `zcomp_strm_multi_release`: under the lock, if `avail_strm ≤
max_strm` push the stream onto the idle list (`list_add` inserts at the
head) and wake waiters; otherwise decrement `avail_strm` and free the
stream. -/
def zcomp_strm_multi_release (zs : MultiState) (zstrm : Nat) : ReleaseResult :=
  if zs.avail_strm ≤ zs.max_strm then
    ⟨{ zs with idle_strm := zstrm :: zs.idle_strm }, true, none⟩
  else
    ⟨{ zs with avail_strm := zs.avail_strm - 1 }, false, some zstrm⟩

/-- The `while (avail_strm > num_strm && !list_empty(&idle_strm))` loop
of `zcomp_strm_multi_set_max_streams`: pop idle streams from the head,
freeing each and decrementing `avail_strm`. Returns the final
`avail_strm`, the remaining idle list, and the freed streams. -/
def shrinkLoop (num : Int) : List Nat → Int → Int × List Nat × List Nat
  | [], avail => (avail, [], [])
  | z :: rest, avail =>
    if num < avail then
      let r := shrinkLoop num rest (avail - 1)
      (r.1, r.2.1, z :: r.2.2)
    else (avail, z :: rest, [])

/-- `zcomp_strm_multi_set_max_streams`: set `max_strm := num`, run the
shrink loop, and return `true`. Second component: the streams freed. -/
def zcomp_strm_multi_set_max_streams (zs : MultiState) (num : Int) :
    MultiState × List Nat × Bool :=
  let r := shrinkLoop num zs.idle_strm zs.avail_strm
  (⟨num, r.1, r.2.1⟩, r.2.2, true)

/-- Outcome of one pass of the `while (1)` body of
`zcomp_strm_multi_find`: a stream was obtained (`got`, with
`fresh = true` when it came from growth rather than the idle list), or
the caller is about to block on `wait_event` (`wait`). -/
inductive FindOutcome
  | got (zstrm : Nat) (s : MultiState) (fresh : Bool)
  | wait (s : MultiState)
deriving Repr, DecidableEq

/-- One pass of the `while (1)` body of `zcomp_strm_multi_find`:
fast path from the idle list; if the limit is reached, wait; otherwise
reserve a slot (`avail_strm + 1`) and attempt a growth allocation
(oracle bit `allocOk`, new stream identifier `freshId`); on failure the
reservation is explicitly given back before waiting, as in the C. -/
def findIter (zs : MultiState) (allocOk : Bool) (freshId : Nat) :
    FindOutcome :=
  match zs.idle_strm with
  | z :: rest => .got z { zs with idle_strm := rest } false
  | [] =>
    if zs.max_strm ≤ zs.avail_strm then .wait zs
    else
      let reserved := { zs with avail_strm := zs.avail_strm + 1 }
      if allocOk then .got freshId reserved true
      else .wait { reserved with avail_strm := reserved.avail_strm - 1 }

/-- `zcomp_strm_multi_find`: run the acquire loop for at most `fuel`
iterations. Each iteration consumes the head of `allocs` as the growth
oracle. A `wait` outcome blocks on `wait_event` until the idle list is
non-empty: the block is resolved by consuming the next stream of
`refills` (a stream some other thread releases into the idle list, at
the head, as `list_add` does); when `refills` is exhausted the caller
blocks forever (`none`). The function has no error outcome: it returns
a stream (`some`) or it has not returned yet (`none`). -/
def zcomp_strm_multi_find (fuel : Nat) (zs : MultiState) (allocs : List Bool)
    (refills : List Nat) (nextId : Nat) : Option (Nat × MultiState) :=
  match fuel with
  | 0 => none
  | f + 1 =>
    match findIter zs (allocs.headD false) nextId with
    | .got z s _ => some (z, s)
    | .wait s =>
      match refills with
      | [] => none
      | r :: rest =>
        zcomp_strm_multi_find f { s with idle_strm := r :: s.idle_strm }
          allocs.tail rest nextId

/-- Release a list of checked-out streams one after the other through
`zcomp_strm_multi_release`, keeping only the bookkeeping state. -/
def releaseAll (zs : MultiState) : List Nat → MultiState
  | [] => zs
  | z :: rest => releaseAll (zcomp_strm_multi_release zs z).state rest

/-- Error numbers used by `zcomp_create`. -/
def EINVAL : Int := 22

/-- `-ENOMEM`'s magnitude. -/
def ENOMEM : Int := 12

/-- `zcomp_strm_multi_create`: install the multi-stream strategy,
allocate the bookkeeping struct (`zsOk`), initialise `max_strm` and
`avail_strm := 1`, allocate the seed stream with `GFP_KERNEL`, and put
it (identifier 0) on the idle list; if the struct or the seed stream
cannot be allocated, free what was obtained and fail with `ENOMEM`. -/
def zcomp_strm_multi_create (name : String) (max_strm : Int) (zsOk : Bool)
    (o : AllocOracle) (l : Ledger) : Except Int MultiState × Ledger :=
  if zsOk then
    let l0 := { l with poolA := l.poolA + 1 }
    let al := zcomp_strm_alloc name GFP_KERNEL o l0
    match al.1 with
    | none => (.error ENOMEM, { al.2 with poolF := al.2.poolF + 1 })
    | some _ => (.ok ⟨max_strm, 1, [0]⟩, al.2)
  else (.error ENOMEM, l)

/-- `zcomp_strm_single_create`: install the single-stream strategy,
allocate the bookkeeping struct and the one stream; on stream failure
free the struct and fail with `ENOMEM`. The single strategy's pure
state is just its one stream, held for the pool's lifetime. -/
def zcomp_strm_single_create (name : String) (zsOk : Bool)
    (o : AllocOracle) (l : Ledger) : Except Int Unit × Ledger :=
  if zsOk then
    let l0 := { l with poolA := l.poolA + 1 }
    let al := zcomp_strm_alloc name GFP_KERNEL o l0
    match al.1 with
    | none => (.error ENOMEM, { al.2 with poolF := al.2.poolF + 1 })
    | some _ => (.ok (), al.2)
  else (.error ENOMEM, l)

/-- The strategy bound into a `struct zcomp` at construction: the
single-stream pool (whose bookkeeping has no pure content beyond its
lock) or the multi-stream pool state. -/
inductive PoolChoice
  | single
  | multi (zs : MultiState)
deriving Repr, DecidableEq

/-- `struct zcomp`: the backend name and the strategy chosen at
construction. -/
structure Zcomp where
  name : String
  stream : PoolChoice
deriving Repr, DecidableEq

/-- Oracle for one `zcomp_create` call: whether the `kzalloc` of
`struct zcomp` succeeds, whether the pool struct `kmalloc` succeeds,
and the seed-stream allocation oracle. -/
structure CreateOracle where
  compOk : Bool
  zsOk : Bool
  alloc : AllocOracle
deriving Repr, DecidableEq

/-- `zcomp_create`: look up the backend first (`EINVAL` when absent,
before anything is allocated); allocate `struct zcomp`; then build the
multi-stream pool when `max_strm > 1`, the single-stream pool
otherwise; a pool-construction error frees the `struct zcomp` and is
propagated. -/
def zcomp_create (lz4 : Bool) (compress : String) (max_strm : Int)
    (o : CreateOracle) (l : Ledger) : Except Int Zcomp × Ledger :=
  match find_backend lz4 compress with
  | none => (.error EINVAL, l)
  | some backend =>
    if o.compOk then
      let l0 := { l with compA := l.compA + 1 }
      if 1 < max_strm then
        match zcomp_strm_multi_create backend max_strm o.zsOk o.alloc l0 with
        | (.ok zs, l1) => (.ok ⟨backend, .multi zs⟩, l1)
        | (.error e, l1) => (.error e, { l1 with compF := l1.compF + 1 })
      else
        match zcomp_strm_single_create backend o.zsOk o.alloc l0 with
        | (.ok _, l1) => (.ok ⟨backend, .single⟩, l1)
        | (.error e, l1) => (.error e, { l1 with compF := l1.compF + 1 })
    else (.error ENOMEM, l)

/-- `zcomp_strm_single_set_max_streams`: the single strategy supports
only `max_comp_streams == 1`; always report failure. -/
def zcomp_strm_single_set_max_streams (num_strm : Int) : Bool := false

/-- `zcomp_set_max_streams`: dispatch through the strategy's function
pointer; returns the updated facade and the reported Boolean. -/
def zcomp_set_max_streams (comp : Zcomp) (num : Int) : Zcomp × Bool :=
  match comp.stream with
  | .single => (comp, zcomp_strm_single_set_max_streams num)
  | .multi zs =>
    let r := zcomp_strm_multi_set_max_streams zs num
    (⟨comp.name, .multi r.1⟩, r.2.2)

/-- Whether a `zcomp_strm_alloc` attempt with this oracle succeeds. -/
def AllocOracle.ok (o : AllocOracle) : Bool :=
  o.kmallocOk && o.cryptoOk && o.pagesOk

/-- C3: `Release` places the stream into the idle collection (at the
head) and reports a wake-up exactly when `live ≤ capacity` at release
time; otherwise it decrements the live count and frees the stream,
leaving the idle collection unchanged. The branch equations show the
decision reads only the state current at release time. -/
theorem C3_release_decision (zs : MultiState) (z : Nat) :
    ((zcomp_strm_multi_release zs z).freed = none ↔
       zs.avail_strm ≤ zs.max_strm) ∧
    (zs.avail_strm ≤ zs.max_strm →
       (zcomp_strm_multi_release zs z).state =
         { zs with idle_strm := z :: zs.idle_strm } ∧
       (zcomp_strm_multi_release zs z).woke = true) ∧
    (zs.max_strm < zs.avail_strm →
       (zcomp_strm_multi_release zs z).state =
         { zs with avail_strm := zs.avail_strm - 1 } ∧
       (zcomp_strm_multi_release zs z).woke = false ∧
       (zcomp_strm_multi_release zs z).freed = some z) := by
  unfold zcomp_strm_multi_release
  refine ⟨?_, ?_, ?_⟩ <;> split <;> simp_all

/-- Witness for C3 at concrete states on both sides of the decision. -/
theorem C3_release_decision_witness :
    ((zcomp_strm_multi_release ⟨2, 1, []⟩ 7).state =
       { MultiState.mk 2 1 [] with idle_strm := 7 :: [] } ∧
     (zcomp_strm_multi_release ⟨2, 1, []⟩ 7).woke = true) ∧
    ((zcomp_strm_multi_release ⟨1, 2, []⟩ 7).state =
       { MultiState.mk 1 2 [] with avail_strm := 2 - 1 } ∧
     (zcomp_strm_multi_release ⟨1, 2, []⟩ 7).woke = false ∧
     (zcomp_strm_multi_release ⟨1, 2, []⟩ 7).freed = some 7) :=
  ⟨(C3_release_decision ⟨2, 1, []⟩ 7).2.1 (by decide),
   (C3_release_decision ⟨1, 2, []⟩ 7).2.2 (by decide)⟩

/-- C7: `SetMaxStreams` through the facade returns `true` on the
multi-stream strategy (installing the requested capacity) and always
`false` on the single-stream strategy, whose state is unchanged. -/
theorem C7_set_max_streams_dispatch (name : String) (zs : MultiState)
    (num : Int) :
    zcomp_set_max_streams ⟨name, .single⟩ num = (⟨name, .single⟩, false) ∧
    (zcomp_set_max_streams ⟨name, .multi zs⟩ num).2 = true ∧
    ∃ zs2, (zcomp_set_max_streams ⟨name, .multi zs⟩ num).1 =
        ⟨name, .multi zs2⟩ ∧ zs2.max_strm = num := by
  refine ⟨rfl, rfl, ⟨(zcomp_strm_multi_set_max_streams zs num).1, rfl, rfl⟩⟩

/-- C8: for a name absent from the backend registry, `zcomp_create`
fails with `EINVAL` (distinct from `ENOMEM`), and the ledger is
untouched: the lookup precedes every allocation. -/
theorem C8_create_unknown_algorithm (lz4 : Bool) (compress : String)
    (ms : Int) (o : CreateOracle) (l : Ledger)
    (h : find_backend lz4 compress = none) :
    zcomp_create lz4 compress ms o l = (.error EINVAL, l) ∧
    EINVAL ≠ ENOMEM := by
  unfold zcomp_create
  rw [h]
  exact ⟨rfl, by decide⟩

/-- Witness for C8 at the concrete name `"unknown-algo"`. -/
theorem C8_create_unknown_algorithm_witness :
    zcomp_create true "unknown-algo" 4 ⟨true, true, ⟨true, true, true, []⟩⟩
        Ledger.empty = (.error EINVAL, Ledger.empty) ∧
    EINVAL ≠ ENOMEM :=
  C8_create_unknown_algorithm true "unknown-algo" 4
    ⟨true, true, ⟨true, true, true, []⟩⟩ Ledger.empty (by decide)

/-- C10: every stream `zcomp_strm_alloc` successfully returns — under
any flags, so in particular both at eager construction (`GFP_KERNEL`)
and during lazy growth (`growFlags`) — carries a scratch buffer that is
zero-filled over its whole `2 × PAGE_SIZE` extent, because the buffer
allocation always ors `__GFP_ZERO` into the caller's flags. -/
theorem C10_buffer_zero_filled (name : String) (flags : GfpT)
    (o : AllocOracle) (l l2 : Ledger) (z : ZcompStrm)
    (h : zcomp_strm_alloc name flags o l = (some z, l2)) :
    z.buffer = some (List.replicate (2 * PAGE_SIZE) 0) := by
  unfold zcomp_strm_alloc crypto_alloc_comp __get_free_pages orZero at h
  rcases o with ⟨km, cr, pg, junk⟩
  cases km <;> cases cr <;> cases pg <;> simp_all
  rw [← h.1]

/-- Witness for C10: a concrete successful allocation. -/
theorem C10_buffer_zero_filled_witness :
    (zcomp_strm_alloc "lzo" GFP_KERNEL ⟨true, true, true, []⟩
        Ledger.empty).1 =
      some ⟨some ⟨"lzo"⟩, some (List.replicate (2 * PAGE_SIZE) 0)⟩ := by
  have h := C10_buffer_zero_filled "lzo" GFP_KERNEL ⟨true, true, true, []⟩
    Ledger.empty ⟨1, 0, 1, 0, 1, 0, 0, 0, 0, 0⟩
    ⟨some ⟨"lzo"⟩, some (List.replicate (2 * PAGE_SIZE) 0)⟩ (by norm_num [zcomp_strm_alloc, crypto_alloc_comp, __get_free_pages, orZero, Ledger.empty, GFP_KERNEL])
  norm_num [zcomp_strm_alloc, crypto_alloc_comp, __get_free_pages, orZero,
    Ledger.empty, GFP_KERNEL]

/-- C6: a successful `zcomp_strm_alloc` yields a stream holding a valid
codec handle and a buffer of exactly `2 × PAGE_SIZE` bytes; on failure
of either sub-allocation every partially obtained resource is released
before null is returned, leaving the ledger balanced — no partial
stream escapes. -/
theorem C6_strm_alloc_all_or_nothing (name : String) (flags : GfpT)
    (o : AllocOracle) :
    (∀ z l2, zcomp_strm_alloc name flags o Ledger.empty = (some z, l2) →
       (∃ t, z.tfm = some t) ∧
       ∃ buf, z.buffer = some buf ∧ buf.length = 2 * PAGE_SIZE) ∧
    (∀ l2, zcomp_strm_alloc name flags o Ledger.empty = (none, l2) →
       l2.balanced) := by
  unfold zcomp_strm_alloc crypto_alloc_comp __get_free_pages orZero
    zcomp_strm_free crypto_free_comp
  rcases o with ⟨km, cr, pg, junk⟩
  cases km <;> cases cr <;> cases pg <;>
    simp_all [Ledger.empty, Ledger.balanced]

/-- Witness for C6: a successful attempt and a buffer-failure attempt. -/
theorem C6_strm_alloc_all_or_nothing_witness :
    ((∃ t, (⟨some ⟨"lzo"⟩, some (List.replicate (2 * PAGE_SIZE) 0)⟩ :
        ZcompStrm).tfm = some t) ∧
     ∃ buf, (⟨some ⟨"lzo"⟩, some (List.replicate (2 * PAGE_SIZE) 0)⟩ :
        ZcompStrm).buffer = some buf ∧ buf.length = 2 * PAGE_SIZE) ∧
    (zcomp_strm_alloc "lzo" GFP_KERNEL ⟨true, true, false, []⟩
        Ledger.empty).2.balanced :=
  ⟨(C6_strm_alloc_all_or_nothing "lzo" GFP_KERNEL ⟨true, true, true, []⟩).1
     ⟨some ⟨"lzo"⟩, some (List.replicate (2 * PAGE_SIZE) 0)⟩
     ⟨1, 0, 1, 0, 1, 0, 0, 0, 0, 0⟩ (by norm_num [zcomp_strm_alloc,
        crypto_alloc_comp, __get_free_pages, orZero, Ledger.empty, GFP_KERNEL]),
   (C6_strm_alloc_all_or_nothing "lzo" GFP_KERNEL ⟨true, true, false, []⟩).2
     (zcomp_strm_alloc "lzo" GFP_KERNEL ⟨true, true, false, []⟩
        Ledger.empty).2 (by norm_num [zcomp_strm_alloc, crypto_alloc_comp,
        __get_free_pages, orZero, Ledger.empty, GFP_KERNEL])⟩

/-- C9: the availability comparison is asymmetric with the listing's.
`"lzo\n"` (a registered name plus a trailing newline) is accepted by
`find_backend`/`zcomp_available_algorithm` and by `zcomp_create`, yet
`zcomp_available_show` brackets no backend for it, while the exact name
`"lzo"` is bracketed; shown for both settings of the lz4 config. -/
theorem C9_matching_asymmetry :
    zcomp_available_algorithm true "lzo\n" = true ∧
    zcomp_available_algorithm false "lzo\n" = true ∧
    (zcomp_create true "lzo\n" 4 ⟨true, true, ⟨true, true, true, []⟩⟩
        Ledger.empty).1 = .ok ⟨"lzo", .multi ⟨4, 1, [0]⟩⟩ ∧
    zcomp_available_show true "lzo\n" = "lzo lz4 \n" ∧
    zcomp_available_show false "lzo\n" = "lzo \n" ∧
    zcomp_available_show true "lzo" = "[lzo] lz4 \n" := by
  exact ⟨by decide, by decide, rfl, by decide, by decide, by decide⟩

/-- C1: `zcomp_strm_multi_find` never surfaces a failure. First: when
the idle list is empty, there is room to grow, and the growth
allocation fails, one pass of the loop ends in `wait` with the
bookkeeping exactly as before — the reserved slot was given back by
decrementing the live count — and the caller then blocks until the idle
list is non-empty and retries from the fast path. Second: whenever some
other thread eventually releases a stream (a non-empty refill supply),
the loop returns a stream within two passes from any state and any
allocation outcomes; the only `some` outcomes of the function carry a
stream. -/
theorem C1_acquire_never_fails :
    (∀ (zs : MultiState) (freshId : Nat),
       zs.idle_strm = [] → zs.avail_strm < zs.max_strm →
       findIter zs false freshId = .wait zs) ∧
    (∀ (zs : MultiState) (allocs : List Bool) (r : Nat)
       (refills : List Nat) (nextId : Nat),
       ∃ z s2, zcomp_strm_multi_find 2 zs allocs (r :: refills) nextId =
         some (z, s2)) := by
  constructor
  · rintro ⟨m, a, i⟩ freshId hi ha
    simp only at hi
    subst hi
    have ha2 : a < m := ha
    simp only [findIter, if_neg (by omega : ¬ m ≤ a), if_neg Bool.false_ne_true]
    norm_num
  · rintro ⟨m, a, i⟩ allocs r refills nextId
    cases i with
    | cons z rest => exact ⟨z, _, rfl⟩
    | nil =>
      by_cases hma : m ≤ a
      · exact ⟨r, ⟨m, a, []⟩,
          by simp [zcomp_strm_multi_find, findIter, hma]⟩
      · cases allocs with
        | nil => exact ⟨r, ⟨m, a, []⟩,
            by simp [zcomp_strm_multi_find, findIter, hma]⟩
        | cons b bs =>
          cases b
          · exact ⟨r, ⟨m, a, []⟩,
              by simp [zcomp_strm_multi_find, findIter, hma]⟩
          · exact ⟨nextId, ⟨m, a + 1, []⟩,
              by simp [zcomp_strm_multi_find, findIter, hma]⟩

/-- Witness for C1: the failed-growth pass at a concrete state, and a
concrete blocked acquire completing once a stream is released. -/
theorem C1_acquire_never_fails_witness :
    findIter ⟨2, 1, []⟩ false 5 = .wait ⟨2, 1, []⟩ ∧
    ∃ z s2, zcomp_strm_multi_find 2 ⟨2, 1, []⟩ [false] [9] 7 = some (z, s2) :=
  ⟨C1_acquire_never_fails.1 ⟨2, 1, []⟩ 5 rfl (by decide),
   C1_acquire_never_fails.2 ⟨2, 1, []⟩ [false] 9 [] 7⟩

/-- C5: with a registered algorithm and the facade struct allocatable,
`zcomp_create` binds the single-stream strategy exactly when
`max_strm ≤ 1` and the multi-stream strategy exactly when
`max_strm > 1`; a successful multi-stream pool starts with exactly one
eagerly allocated stream on the idle list and a live count of 1; and if
the seed stream cannot be allocated the whole call fails with `ENOMEM`
and every partially allocated resource has been freed. -/
theorem C5_create_strategy (lz4 : Bool) (compress b : String) (ms : Int)
    (o : CreateOracle) (hb : find_backend lz4 compress = some b)
    (hc : o.compOk = true) :
    (∀ c l2, zcomp_create lz4 compress ms o Ledger.empty = (.ok c, l2) →
       (ms ≤ 1 → c.stream = .single) ∧
       (1 < ms → c.stream = .multi ⟨ms, 1, [0]⟩)) ∧
    (1 < ms → o.zsOk = true → o.alloc.ok = false →
       (zcomp_create lz4 compress ms o Ledger.empty).1 = .error ENOMEM ∧
       (zcomp_create lz4 compress ms o Ledger.empty).2.balanced) := by
  rcases o with ⟨co, zo, ⟨km, cr, pg, junk⟩⟩
  simp only at hc
  subst hc
  constructor
  · intro c l2 h
    rcases lt_or_le 1 ms with hms | hms
    · refine ⟨fun hle => absurd hms (not_lt.mpr hle), fun _ => ?_⟩
      cases zo <;> cases km <;> cases cr <;> cases pg <;>
        simp_all [zcomp_create, zcomp_strm_multi_create, zcomp_strm_alloc,
          crypto_alloc_comp, __get_free_pages, orZero, zcomp_strm_free,
          crypto_free_comp, Ledger.empty, hb]
      rw [← h.1]
    · have hnot : ¬ 1 < ms := not_lt.mpr hms
      refine ⟨fun _ => ?_, fun hgt => absurd hgt hnot⟩
      cases zo <;> cases km <;> cases cr <;> cases pg <;>
        simp_all [zcomp_create, zcomp_strm_single_create, zcomp_strm_alloc,
          crypto_alloc_comp, __get_free_pages, orZero, zcomp_strm_free,
          crypto_free_comp, Ledger.empty, hb, if_neg hnot] <;>
        rw [← (h.1)]
  · intro hms hzs hfail
    simp only at hzs
    subst hzs
    simp only [AllocOracle.ok] at hfail
    cases km <;> cases cr <;> cases pg <;>
      simp_all [zcomp_create, zcomp_strm_multi_create, zcomp_strm_alloc,
        crypto_alloc_comp, __get_free_pages, orZero, zcomp_strm_free,
        crypto_free_comp, Ledger.empty, Ledger.balanced, hb, hms]

/-- Witness for C5: a concrete successful multi-stream creation and a
concrete seed-allocation failure. -/
theorem C5_create_strategy_witness :
    (Zcomp.mk "lzo" (.multi ⟨3, 1, [0]⟩)).stream = .multi ⟨3, 1, [0]⟩ ∧
    ((zcomp_create false "lzo" 3 ⟨true, true, ⟨true, true, false, []⟩⟩
        Ledger.empty).1 = .error ENOMEM ∧
     (zcomp_create false "lzo" 3 ⟨true, true, ⟨true, true, false, []⟩⟩
        Ledger.empty).2.balanced) :=
  ⟨((C5_create_strategy false "lzo" "lzo" 3
      ⟨true, true, ⟨true, true, true, []⟩⟩ (by decide) rfl).1
      ⟨"lzo", .multi ⟨3, 1, [0]⟩⟩ ⟨1, 0, 1, 0, 1, 0, 1, 0, 1, 0⟩ rfl).2
      (by decide),
   (C5_create_strategy false "lzo" "lzo" 3
      ⟨true, true, ⟨true, true, false, []⟩⟩ (by decide) rfl).2
      (by decide) rfl (by decide)⟩

/-- Closed-form characterisation of the shrink loop: it removes
`min(idle length, max(avail − num, 0))` streams from the idle list,
decrementing `avail` by the same amount. -/
theorem shrinkLoop_spec (num : Int) (idle : List Nat) (avail : Int) :
    (shrinkLoop num idle avail).1 =
      avail - min (idle.length : Int) (max (avail - num) 0) ∧
    ((shrinkLoop num idle avail).2.1.length : Int) =
      (idle.length : Int) - min (idle.length : Int) (max (avail - num) 0) := by
  induction idle generalizing avail with
  | nil => simp [shrinkLoop]
  | cons z rest ih =>
    by_cases h : num < avail
    · obtain ⟨h1, h2⟩ := ih (avail - 1)
      simp only [shrinkLoop, if_pos h, List.length_cons]
      constructor <;> push_cast <;> omega
    · simp only [shrinkLoop, if_neg h, List.length_cons]
      constructor <;> push_cast <;> omega

/-- The shrink loop keeps a suffix of the idle list: the survivors form
a sublist of the original idle list. -/
theorem shrinkLoop_sublist (num : Int) (idle : List Nat) (avail : Int) :
    (shrinkLoop num idle avail).2.1.Sublist idle := by
  induction idle generalizing avail with
  | nil => simp [shrinkLoop]
  | cons z rest ih =>
    by_cases h : num < avail
    · simp only [shrinkLoop, if_pos h]
      exact (ih (avail - 1)).cons z
    · simp [shrinkLoop, h]

/-- Releasing a batch of checked-out streams preserves the capacity and
drives the live count to `max(capacity, live − k)` when it is above
capacity (each over-capacity release frees a stream), leaving it alone
otherwise. -/
theorem releaseAll_spec (outs : List Nat) (zs : MultiState) :
    (releaseAll zs outs).max_strm = zs.max_strm ∧
    (releaseAll zs outs).avail_strm =
      if zs.avail_strm ≤ zs.max_strm then zs.avail_strm
      else max zs.max_strm (zs.avail_strm - outs.length) := by
  induction outs generalizing zs with
  | nil =>
    refine ⟨rfl, ?_⟩
    simp only [releaseAll, List.length_nil]
    split <;> push_cast <;> omega
  | cons z rest ih =>
    simp only [releaseAll, zcomp_strm_multi_release, List.length_cons]
    by_cases h : zs.avail_strm ≤ zs.max_strm
    · rw [if_pos h]
      obtain ⟨h1, h2⟩ := ih { zs with idle_strm := z :: zs.idle_strm }
      simp only at h1 h2
      refine ⟨h1, ?_⟩
      rw [h2]
      split <;> push_cast <;> omega
    · rw [if_neg h]
      obtain ⟨h1, h2⟩ := ih { zs with avail_strm := zs.avail_strm - 1 }
      simp only at h1 h2
      refine ⟨h1, ?_⟩
      rw [h2, if_neg h]
      split <;> push_cast <;> omega

/-- Counterexample to C2 as stated: a pool with capacity 4, live count
4, two idle streams and two checked out. `SetMaxStreams 3` (with
`3 < 4`) frees only one idle stream — `live − n2 = 1` — so the idle
count becomes 1, not `min(idleBefore, n2) = min 2 3 = 2`. -/
theorem C2_shrink_idle_count_cex :
    (3 : Int) < 4 ∧
    (zcomp_strm_multi_set_max_streams ⟨4, 4, [1, 2]⟩ 3).1.idle_strm.length
      = 1 ∧
    min 2 3 ≠ 1 := by decide

/-- C2 amended: for a multi-stream pool whose live count equals idle
count plus checked-out count, `SetMaxStreams n2` (`n2 ≥ 0`) immediately
drops the idle count by `min(idleBefore, max(live − n2, 0))` — i.e. to
`min(idleBefore, n2)` only in the special case that nothing is checked
out — and once every checked-out stream is subsequently released, the
live count converges to `min(liveBefore, n2)` (to `n2` whenever
`liveBefore ≥ n2`), over-capacity streams being freed at their release. -/
theorem C2_shrink_idle_count_amended (zs : MultiState) (outs : List Nat)
    (n2 : Int) (hn : 0 ≤ n2)
    (hinv : zs.avail_strm = (zs.idle_strm.length : Int) + outs.length) :
    ((zcomp_strm_multi_set_max_streams zs n2).1.idle_strm.length : Int) =
      (zs.idle_strm.length : Int) -
        min (zs.idle_strm.length : Int) (max (zs.avail_strm - n2) 0) ∧
    (releaseAll (zcomp_strm_multi_set_max_streams zs n2).1 outs).avail_strm =
      min zs.avail_strm n2 := by
  obtain ⟨h1, h2⟩ := shrinkLoop_spec n2 zs.idle_strm zs.avail_strm
  unfold zcomp_strm_multi_set_max_streams
  refine ⟨h2, ?_⟩
  obtain ⟨r1, r2⟩ := releaseAll_spec outs
    ⟨n2, (shrinkLoop n2 zs.idle_strm zs.avail_strm).1,
      (shrinkLoop n2 zs.idle_strm zs.avail_strm).2.1⟩
  simp only at r1 r2
  rw [r2]
  split <;> omega

/-- Witness for C2's amended theorem at the counterexample's pool state
(capacity 4, live 4, idle `[1, 2]`, checked out `[3, 4]`): shrinking to
3 leaves one idle stream, and after both checked-out streams are
released the live count is `min 4 3 = 3`. -/
theorem C2_shrink_idle_count_amended_witness :
    ((zcomp_strm_multi_set_max_streams ⟨4, 4, [1, 2]⟩ 3).1.idle_strm.length
        : Int) = (2 : Int) - min (2 : Int) (max ((4 : Int) - 3) 0) ∧
    (releaseAll (zcomp_strm_multi_set_max_streams ⟨4, 4, [1, 2]⟩ 3).1
        [3, 4]).avail_strm = min (4 : Int) 3 :=
  C2_shrink_idle_count_amended ⟨4, 4, [1, 2]⟩ [3, 4] 3 (by decide) (by decide)

/-- Whole-system state for the multi-stream pool protocol: the pool
bookkeeping, the streams currently checked out by callers (ghost
state the C keeps implicitly in its callers), and a counter from which
fresh stream identifiers are drawn. -/
structure SysState where
  pool : MultiState
  outs : List Nat
  nextId : Nat
deriving Repr, DecidableEq

/-- One completed operation on the pool, as implemented by
`zcomp_strm_multi_find` (its two ways of handing out a stream),
`zcomp_strm_multi_release` and `zcomp_strm_multi_set_max_streams`. A
failed growth attempt nets to the identical state (the reservation is
returned) and so needs no transition. With `restricted = true`, capacity
changes below the current live count are excluded. -/
inductive Step (restricted : Bool) : SysState → SysState → Prop
  | acquireFast (s : SysState) (z : Nat) (rest : List Nat)
      (hidle : s.pool.idle_strm = z :: rest) :
      Step restricted s
        ⟨⟨s.pool.max_strm, s.pool.avail_strm, rest⟩, z :: s.outs, s.nextId⟩
  | acquireGrow (s : SysState)
      (hidle : s.pool.idle_strm = [])
      (hroom : s.pool.avail_strm < s.pool.max_strm) :
      Step restricted s
        ⟨⟨s.pool.max_strm, s.pool.avail_strm + 1, []⟩, s.nextId :: s.outs,
          s.nextId + 1⟩
  | release (s : SysState) (z : Nat) (l1 l2 : List Nat)
      (houts : s.outs = l1 ++ z :: l2) :
      Step restricted s
        ⟨(zcomp_strm_multi_release s.pool z).state, l1 ++ l2, s.nextId⟩
  | setMax (s : SysState) (n : Int)
      (hres : restricted = true → s.pool.avail_strm ≤ n) :
      Step restricted s
        ⟨(zcomp_strm_multi_set_max_streams s.pool n).1, s.outs, s.nextId⟩

/-- The pool as `zcomp_strm_multi_create` leaves it: one live stream
(identifier 0) on the idle list, nothing checked out. -/
def initState (max0 : Int) : SysState := ⟨⟨max0, 1, [0]⟩, [], 1⟩

/-- The structural pool invariant: the live count equals idle plus
checked-out streams (so `idle` holds only live streams), no stream
appears twice across `idle` and the checked-out collection (so no
stream is simultaneously idle and checked out), and all identifiers
are below the freshness counter. -/
def goodSys (s : SysState) : Prop :=
  s.pool.avail_strm = (s.pool.idle_strm.length : Int) + s.outs.length ∧
  (s.pool.idle_strm ++ s.outs).Nodup ∧
  ∀ w ∈ s.pool.idle_strm ++ s.outs, w < s.nextId

/-- Every protocol step preserves the structural invariant. -/
theorem goodSys_step {r : Bool} {s t : SysState} (hs : goodSys s)
    (hst : Step r s t) : goodSys t := by
  obtain ⟨hcount, hnodup, hbound⟩ := hs
  cases hst with
  | acquireFast z rest hidle =>
    rw [hidle] at hcount hnodup hbound
    have p : ((z :: rest) ++ s.outs).Perm (rest ++ z :: s.outs) :=
      List.perm_middle.symm
    refine ⟨?_, p.nodup hnodup, ?_⟩
    · simp only [List.length_cons] at hcount ⊢
      push_cast at hcount ⊢
      omega
    · intro w hw
      exact hbound w (p.symm.subset hw)
  | acquireGrow hidle hroom =>
    rw [hidle] at hcount hnodup hbound
    simp only [List.nil_append] at hcount hnodup hbound
    refine ⟨?_, ?_, ?_⟩
    · simp only [List.length_cons]
      push_cast at hcount ⊢
      omega
    · simp only [List.nil_append, List.nodup_cons]
      exact ⟨fun hmem => lt_irrefl _ (hbound _ hmem), hnodup⟩
    · intro w hw
      simp only [List.nil_append, List.mem_cons] at hw
      show w < s.nextId + 1
      rcases hw with h | h
      · omega
      · have := hbound w h
        omega
  | release z l1 l2 houts =>
    rw [houts] at hcount hnodup hbound
    unfold zcomp_strm_multi_release
    split
    · have p : (s.pool.idle_strm ++ (l1 ++ z :: l2)).Perm
          (z :: (s.pool.idle_strm ++ (l1 ++ l2))) :=
        (List.Perm.append_left s.pool.idle_strm List.perm_middle).trans
          List.perm_middle
      refine ⟨?_, ?_, ?_⟩
      · simp only [List.length_cons, List.length_append] at hcount ⊢
        push_cast at hcount ⊢
        omega
      · simpa using p.nodup hnodup
      · intro w hw
        refine hbound w (p.symm.subset ?_)
        simpa using hw
    · have hsub : (s.pool.idle_strm ++ (l1 ++ l2)).Sublist
          (s.pool.idle_strm ++ (l1 ++ z :: l2)) :=
        List.Sublist.append_left
          (List.Sublist.append_left (List.sublist_cons_self z l2) l1)
          s.pool.idle_strm
      refine ⟨?_, hsub.nodup hnodup, ?_⟩
      · simp only [List.length_append, List.length_cons] at hcount ⊢
        push_cast at hcount ⊢
        omega
      · intro w hw
        exact hbound w (hsub.subset hw)
  | setMax n hres =>
    obtain ⟨h1, h2⟩ := shrinkLoop_spec n s.pool.idle_strm s.pool.avail_strm
    have hsub0 := shrinkLoop_sublist n s.pool.idle_strm s.pool.avail_strm
    unfold zcomp_strm_multi_set_max_streams
    have hsub : ((shrinkLoop n s.pool.idle_strm s.pool.avail_strm).2.1 ++
        s.outs).Sublist (s.pool.idle_strm ++ s.outs) :=
      List.Sublist.append_right hsub0 s.outs
    refine ⟨?_, hsub.nodup hnodup, ?_⟩
    · simp only
      omega
    · intro w hw
      exact hbound w (hsub.subset hw)

/-- With shrinks below the live count excluded, every step also
preserves `live ≤ capacity`. -/
theorem goodCap_step {s t : SysState}
    (hs : s.pool.avail_strm ≤ s.pool.max_strm) (hst : Step true s t) :
    t.pool.avail_strm ≤ t.pool.max_strm := by
  cases hst with
  | acquireFast z rest hidle => exact hs
  | acquireGrow hidle hroom =>
    show s.pool.avail_strm + 1 ≤ s.pool.max_strm
    omega
  | release z l1 l2 houts =>
    unfold zcomp_strm_multi_release
    split <;>
      first
      | exact hs
      | (show s.pool.avail_strm - 1 ≤ s.pool.max_strm; omega)
  | setMax n hres =>
    have h := hres rfl
    obtain ⟨h1, h2⟩ := shrinkLoop_spec n s.pool.idle_strm s.pool.avail_strm
    show (shrinkLoop n s.pool.idle_strm s.pool.avail_strm).1 ≤ n
    omega

/-- C4 amended: in every state reachable from a fresh pool by completed
`Acquire`, `Release` and `SetMaxStreams` steps, the idle collection
contains only live streams (live = idle + checked out) and no stream is
simultaneously idle and checked out; and `live ≤ capacity` holds in
every reachable state provided no `SetMaxStreams` call requested a
capacity below the then-current live count — after such a shrink the
code lets `live` exceed `capacity` durably, until over-capacity streams
are released. -/
theorem C4_invariant_amended :
    (∀ (r : Bool) (max0 : Int) (s : SysState),
       Relation.ReflTransGen (Step r) (initState max0) s → goodSys s) ∧
    (∀ (max0 : Int) (s : SysState), 1 ≤ max0 →
       Relation.ReflTransGen (Step true) (initState max0) s →
       s.pool.avail_strm ≤ s.pool.max_strm) := by
  constructor
  · intro r max0 s h
    induction h with
    | refl =>
      refine ⟨by norm_num [initState], by simp [initState], ?_⟩
      intro w hw
      simp [initState] at hw
      simp [initState, hw]
    | tail hsteps hstep ih => exact goodSys_step ih hstep
  · intro max0 s h1 h
    induction h with
    | refl => exact h1
    | tail hsteps hstep ih => exact goodCap_step ih hstep

/-- Counterexample to C4 as stated: from a fresh pool of capacity 2,
acquire the seed stream, grow to a second stream, then shrink the
capacity to 1. The resulting quiescent state (both acquires and the
resize completed, no operation mid-flight) has live count 2 above
capacity 1 — a durable violation, not the transient growth
reservation. -/
theorem C4_invariant_cex :
    Relation.ReflTransGen (Step false) (initState 2)
      ⟨⟨1, 2, []⟩, [1, 0], 2⟩ ∧
    ¬ ((⟨⟨1, 2, []⟩, [1, 0], 2⟩ : SysState).pool.avail_strm ≤
        (⟨⟨1, 2, []⟩, [1, 0], 2⟩ : SysState).pool.max_strm) := by
  refine ⟨?_, by decide⟩
  have h1 : Step false (initState 2) ⟨⟨2, 1, []⟩, [0], 1⟩ :=
    Step.acquireFast (initState 2) 0 [] rfl
  have h2 : Step false ⟨⟨2, 1, []⟩, [0], 1⟩ ⟨⟨2, 2, []⟩, [1, 0], 2⟩ :=
    Step.acquireGrow ⟨⟨2, 1, []⟩, [0], 1⟩ rfl (by decide)
  have h3 : Step false ⟨⟨2, 2, []⟩, [1, 0], 2⟩ ⟨⟨1, 2, []⟩, [1, 0], 2⟩ :=
    Step.setMax ⟨⟨2, 2, []⟩, [1, 0], 2⟩ 1 (by simp)
  exact .tail (.tail (.tail .refl h1) h2) h3

/-- Witness for C4's amended theorem at a concrete reachable state. -/
theorem C4_invariant_amended_witness :
    goodSys (initState 2) ∧
    (initState 2).pool.avail_strm ≤ (initState 2).pool.max_strm :=
  ⟨C4_invariant_amended.1 false 2 (initState 2) .refl,
   C4_invariant_amended.2 2 (initState 2) (by decide) .refl⟩
